import Mathlib

/-!
Verification development for the audioCanvas collaborative drawing
application.  It embeds the scene store (canvasReducer in useCanvas),
the tool-to-command mapper (mapToolToAction in App.tsx), the broadcast
synchronizer (useCanvas) and the draft/commit verification loop
(handleSendText in App.tsx).  Numbers are modelled as rationals; the
Euclidean-distance comparisons of the nearest-element search are carried
out on squared distances, which is equivalent to the source because the
square root is strictly monotone on nonnegative reals, so
sqrt a < sqrt b iff a < b and sqrt a < 20 iff a < 400 and
sqrt a < 10000 iff a < 100000000 for the distances involved.
-/

namespace AudioCanvas

/-- Scene element as declared in types.ts.  The shape kind is the string
stored in the `type` field; size fields are optional and meaningful only
for the relevant kind. -/
structure CanvasElement where
  id : String
  type : String
  x : ℚ
  y : ℚ
  width : Option ℚ
  height : Option ℚ
  radius : Option ℚ
  fill : String
  text : Option String
  fontSize : Option ℚ
  deriving DecidableEq, Repr

/-- Scene state as declared in types.ts: an ordered list of elements. -/
structure CanvasState where
  elements : List CanvasElement
  deriving DecidableEq, Repr

/-- Partial update record, the shallow embedding of
Partial CanvasElement from types.ts: every field optional, a present
field overwrites the corresponding element field on merge.  Note that
the id field itself is part of the partial type. -/
structure CanvasElementPatch where
  id : Option String
  type : Option String
  x : Option ℚ
  y : Option ℚ
  width : Option ℚ
  height : Option ℚ
  radius : Option ℚ
  fill : Option String
  text : Option String
  fontSize : Option ℚ
  deriving DecidableEq, Repr

/-- Merge of one optional field under a JavaScript object spread: a field
present in the patch overwrites, an absent one keeps the old value. -/
def mergeField {α : Type} (patch old : Option α) : Option α :=
  match patch with
  | some v => some v
  | none => old

/-- Shallow merge of a patch into an element, the embedding of the object
spread in the UPDATE_ELEMENT branch of canvasReducer. -/
def applyUpdates (el : CanvasElement) (u : CanvasElementPatch) : CanvasElement :=
  { id := u.id.getD el.id
    type := u.type.getD el.type
    x := u.x.getD el.x
    y := u.y.getD el.y
    width := mergeField u.width el.width
    height := mergeField u.height el.height
    radius := mergeField u.radius el.radius
    fill := u.fill.getD el.fill
    text := mergeField u.text el.text
    fontSize := mergeField u.fontSize el.fontSize }

/-- Action type as declared in types.ts. -/
inductive CanvasAction where
  | ADD_ELEMENT (payload : CanvasElement)
  | UPDATE_ELEMENT (id : String) (updates : CanvasElementPatch)
  | REMOVE_ELEMENT (payload : String)
  | SET_STATE (payload : List CanvasElement)
  | CLEAR
  deriving DecidableEq, Repr

/-- Initial state of the store in useCanvas. -/
def initialState : CanvasState := ⟨[]⟩

/-- The scene store reducer, embedding canvasReducer from useCanvas.
ADD_ELEMENT appends, UPDATE_ELEMENT maps the shallow merge over elements
whose id matches, REMOVE_ELEMENT filters out every element whose id
equals the payload, SET_STATE replaces the list, CLEAR empties it. -/
def canvasReducer (state : CanvasState) (action : CanvasAction) : CanvasState :=
  match action with
  | .ADD_ELEMENT payload => ⟨state.elements ++ [payload]⟩
  | .UPDATE_ELEMENT i updates =>
      ⟨state.elements.map (fun el => if el.id = i then applyUpdates el updates else el)⟩
  | .REMOVE_ELEMENT payload => ⟨state.elements.filter (fun el => el.id != payload)⟩
  | .SET_STATE payload => ⟨payload⟩
  | .CLEAR => ⟨[]⟩

/-- Sample element used by concrete witnesses. -/
def sampleElement : CanvasElement :=
  ⟨"a", "rect", 0, 0, none, none, none, "red", none, none⟩

/-- Second element sharing the id of sampleElement, used to exercise the
duplicate-id behaviour of the store. -/
def dupElement : CanvasElement :=
  ⟨"a", "rect", 5, 5, none, none, none, "blue", none, none⟩

/-- Patch that carries no fields at all. -/
def emptyPatch : CanvasElementPatch :=
  ⟨none, none, none, none, none, none, none, none, none, none⟩

/-- Patch that only renames the id. -/
def idPatch : CanvasElementPatch :=
  ⟨some "b", none, none, none, none, none, none, none, none, none⟩

/-- Closed set of tool invocations the app dispatches on, following the
tool schema; the unknown constructor covers every other tool name and is
handled by the default branch of the switch. -/
inductive ToolCall where
  | draw_shape (ty : String) (x y size : ℚ) (color : String)
  | add_text (txt : String) (x y : ℚ) (color : Option String) (fontSize : Option ℚ)
  | remove_element (x y : ℚ)
  | clear_board
  | unknown (nm : String)
  deriving DecidableEq, Repr

/-- Squared Euclidean distance from an element to the target point: the
square of dist = sqrt (dx*dx + dy*dy) computed in the remove_element
branch of mapToolToAction. -/
def distSq (x y : ℚ) (el : CanvasElement) : ℚ :=
  (el.x - x) * (el.x - x) + (el.y - y) * (el.y - y)

/-- The for loop of the remove_element branch of mapToolToAction: walk the
element list keeping the closest candidate seen so far.  The source
compares dist against minDist (initially 10000) and THRESHOLD = 20; by
strict monotonicity of the square root these are the comparisons of the
squared distance against 100000000 and 400 used here. -/
def findClosestAux (x y : ℚ) :
    List CanvasElement → Option String → ℚ → Option String × ℚ
  | [], closestId, minDistSq => (closestId, minDistSq)
  | el :: rest, closestId, minDistSq =>
    if distSq x y el < minDistSq ∧ distSq x y el < 400 then
      findClosestAux x y rest (some el.id) (distSq x y el)
    else
      findClosestAux x y rest closestId minDistSq

/-- Embedding of mapToolToAction from App.tsx.  freshId stands for the
value crypto.randomUUID returns during this call.  In the remove_element
branch the source guards the result with a JavaScript truthiness test on
closestId, which is false both for null and for the empty string; the
add_text defaults likewise come from JavaScript truthiness of the color
and fontSize arguments. -/
def mapToolToAction (call : ToolCall) (currentElements : List CanvasElement)
    (freshId : String) : Option CanvasAction :=
  match call with
  | .draw_shape ty x y size color =>
      some (.ADD_ELEMENT
        ⟨freshId, ty, x, y,
          (if ty = "rect" ∨ ty = "triangle" then some size else none),
          (if ty = "rect" then some size else none),
          (if ty = "circle" then some (size / 2) else none),
          color, none, none⟩)
  | .add_text txt x y color fontSize =>
      some (.ADD_ELEMENT
        ⟨freshId, "text", x, y, none, none, none,
          (match color with
           | some c => if c = "" then "black" else c
           | none => "black"),
          some txt,
          some (match fontSize with
                | some f => if f = 0 then 5 else f
                | none => 5)⟩)
  | .remove_element x y =>
      match (findClosestAux x y currentElements none 100000000).1 with
      | some closestId =>
          if closestId = "" then none else some (.REMOVE_ELEMENT closestId)
      | none => none
  | .clear_board => some .CLEAR
  | .unknown _ => none

/-- Specification-side description of the nearest-neighbor search: the
first element in iteration order that lies strictly within the 20-unit
threshold (squared: 400) and whose distance to the target is minimal over
the whole list, so a tie at exactly equal distance is won by the first
element in iteration order. -/
def nearestWithinThreshold (x y : ℚ) (els : List CanvasElement) :
    Option CanvasElement :=
  els.find? (fun e =>
    decide (distSq x y e < 400 ∧ ∀ r ∈ els, distSq x y e ≤ distSq x y r))

/-- Candidate predicate parametrised by the running minimum m, used to
characterise the loop of findClosestAux. -/
def qualifiesAt (x y m : ℚ) (l : List CanvasElement) (e : CanvasElement) : Bool :=
  decide (distSq x y e < 400 ∧ distSq x y e < m ∧
    ∀ r ∈ l, distSq x y e ≤ distSq x y r)

/-- Elements at (10,10), (10,12) and (50,50), as in the specification
example for the nearest-neighbor search. -/
def exampleElems : List CanvasElement :=
  [⟨"e1", "circle", 10, 10, none, none, some 2, "red", none, none⟩,
   ⟨"e2", "circle", 10, 12, none, none, some 2, "blue", none, none⟩,
   ⟨"e3", "circle", 50, 50, none, none, some 2, "green", none, none⟩]

/-- Two elements at exactly equal distance 1 from the target (11,10),
exercising the tie-break. -/
def tieElems : List CanvasElement :=
  [⟨"t1", "rect", 10, 10, some 2, some 2, none, "red", none, none⟩,
   ⟨"t2", "rect", 12, 10, some 2, some 2, none, "blue", none, none⟩]

/-- Element carrying the empty string as id, sitting exactly on the
target point. -/
def emptyIdElement : CanvasElement :=
  ⟨"", "circle", 10, 11, none, none, some 5, "red", none, none⟩

/-- Observer-local publish of the broadcast synchronizer, embedding
broadcastAction from useCanvas: dispatch the action to the local store
and post it exactly once on the shared channel. -/
def publishLocal (st : CanvasState) (a : CanvasAction) : CanvasState × List CanvasAction :=
  (canvasReducer st a, [a])

/-- Observer-side handling of a remote message, embedding the onmessage
handler from useCanvas: dispatch the received action locally and post
nothing back on the channel. -/
def receiveRemote (st : CanvasState) (a : CanvasAction) : CanvasState × List CanvasAction :=
  (canvasReducer st a, [])

/-- Two-observer broadcast of one locally originated command, as the
source actually behaves.  broadcastAction dispatches locally and then
posts the action on a freshly constructed channel object; postMessage is
excluded only from the very channel object it was called on, so the
message is delivered to every other channel object with the same name,
which includes both the second observer and the long-lived subscription
channel the useEffect of the originating context created, whose
onmessage handler re-dispatches the action there.  The originating
observer therefore applies its own command a second time through the
echo, while the second observer applies it once. -/
def broadcastLocalCommand (origin other : CanvasState) (a : CanvasAction) :
    CanvasState × CanvasState :=
  ((receiveRemote (publishLocal origin a).1 a).1, (receiveRemote other a).1)

/-- Phase of the agentic processing loop in App.tsx. -/
inductive ProcessingPhase where
  | idle
  | generating
  | verifying
  | fixing
  deriving DecidableEq, Repr

/-- One model round-trip result: zero or more tool calls plus optional
trailing text (an absent functionCalls field is the empty list). -/
structure ModelResponse where
  functionCalls : List ToolCall
  text : Option String
  deriving DecidableEq, Repr

/-- Execute the tool calls of one response against the draft scene,
embedding the for loop of the agentic loop: map each call against the
current draft and, when mapping yields an action, apply it through
canvasReducer.  ids is the stream of values crypto.randomUUID yields, n
the index of the value available to the next call. -/
def applyCalls (ids : Nat → String) :
    List ToolCall → Nat → List CanvasElement → List CanvasElement × Nat
  | [], n, draft => (draft, n)
  | fc :: rest, n, draft =>
    match mapToolToAction fc draft (ids n) with
    | some a => applyCalls ids rest (n + 1) (canvasReducer ⟨draft⟩ a).elements
    | none => applyCalls ids rest (n + 1) draft

/-- Iteration cap of the agentic loop (MAX_ITERATIONS in handleSendText). -/
def MAX_ITERATIONS : Nat := 5

/-- The agentic while loop of handleSendText.  model k is the outcome of
round trip number k (round trip 0 answered the initial instruction); one
iteration executes the tool calls of the response it was entered with on
the draft and then performs the next round trip, which may fail.  The
source loop runs while the response carries tool calls and fewer than
MAX_ITERATIONS iterations have run; the structural fuel argument only
bounds the remaining iterations and is always instantiated so that
fuel + iterations = MAX_ITERATIONS, hence it never cuts the loop short. -/
def agenticLoop (model : Nat → Except String ModelResponse) (ids : Nat → String) :
    Nat → Nat → Nat → Nat → List CanvasElement → ModelResponse →
      Except String (List CanvasElement × ModelResponse × Nat)
  | 0, _, _, iterations, draft, response => .ok (draft, response, iterations)
  | fuel + 1, k, n, iterations, draft, response =>
    if response.functionCalls = [] ∨ MAX_ITERATIONS ≤ iterations then
      .ok (draft, response, iterations)
    else
      match model k with
      | .error e => .error e
      | .ok r =>
          agenticLoop model ids fuel (k + 1)
            (applyCalls ids response.functionCalls n draft).2 (iterations + 1)
            (applyCalls ids response.functionCalls n draft).1 r

/-- Outcome of one text-mode handleSendText run: the committed scene
after the run, the actions dispatched to the committed store, the
transcript entries appended on the model side, the final processing
phase, the final hidden draft state, the iteration count, the final
response, and whether the run ended in the catch branch. -/
structure TextRunResult where
  committed : List CanvasElement
  dispatched : List CanvasAction
  transcript : List String
  phase : ProcessingPhase
  draftElements : Option (List CanvasElement)
  iterations : Nat
  finalResponse : Option ModelResponse
  errored : Bool
  deriving DecidableEq, Repr

/-- Failure message appended by the catch branch of handleSendText. -/
def errorMessage : String := "Sorry, I encountered an error processing your request."

/-- Embedding of the text-mode path of handleSendText: clone the committed
scene into the draft, perform the initial round trip, run the agentic
loop, then commit the final draft to the committed store through a single
SET_STATE dispatch and surface any trailing text; on a model failure the
catch branch appends the failure message and nothing is dispatched; the
finally branch always returns the phase to idle and discards the draft. -/
def runTextInstruction (model : Nat → Except String ModelResponse)
    (ids : Nat → String) (committed : List CanvasElement) : TextRunResult :=
  match model 0 with
  | .error _ => ⟨committed, [], [errorMessage], .idle, none, 0, none, true⟩
  | .ok r0 =>
    match agenticLoop model ids MAX_ITERATIONS 1 0 0 committed r0 with
    | .error _ => ⟨committed, [], [errorMessage], .idle, none, 0, none, true⟩
    | .ok (draft, resp, iters) =>
        ⟨(canvasReducer ⟨committed⟩ (.SET_STATE draft)).elements,
          [CanvasAction.SET_STATE draft],
          (match resp.text with | some t => [t] | none => []),
          .idle, none, iters, some resp, false⟩

/-- Model that always answers without tool calls. -/
def idleModel : Nat → Except String ModelResponse :=
  fun _ => .ok ⟨[], some "ok"⟩

/-- Model whose very first round trip fails. -/
def failingModel : Nat → Except String ModelResponse :=
  fun _ => .error "network error"

/-- Model that asks for one red circle and then stops: the end-to-end
scenario of the specification. -/
def demoModel : Nat → Except String ModelResponse :=
  fun k =>
    if k = 0 then .ok ⟨[.draw_shape "circle" 50 50 20 "red"], none⟩
    else .ok ⟨[], some "Drew a red circle."⟩

/-- Stream of distinct fresh identifiers standing for crypto.randomUUID. -/
def uuidStream : Nat → String := fun k => "uuid-" ++ toString k

/-- C8: ReplaceAll (SET_STATE) applied once or twice yields the payload
verbatim, ClearAll (CLEAR) applied once or twice yields the empty scene,
while AddElement always appends: one application grows the scene by one,
two applications by two, so AddElement is not idempotent. -/
theorem command_idempotence_profile (s : CanvasState) (L : List CanvasElement)
    (e : CanvasElement) :
    (canvasReducer s (.SET_STATE L)).elements = L
    ∧ (canvasReducer (canvasReducer s (.SET_STATE L)) (.SET_STATE L)).elements = L
    ∧ (canvasReducer s .CLEAR).elements = []
    ∧ (canvasReducer (canvasReducer s .CLEAR) .CLEAR).elements = []
    ∧ (canvasReducer s (.ADD_ELEMENT e)).elements.length = s.elements.length + 1
    ∧ (canvasReducer (canvasReducer s (.ADD_ELEMENT e)) (.ADD_ELEMENT e)).elements.length
        = s.elements.length + 2
    ∧ canvasReducer (canvasReducer s (.ADD_ELEMENT e)) (.ADD_ELEMENT e)
        ≠ canvasReducer s (.ADD_ELEMENT e) := by
  refine ⟨rfl, rfl, rfl, rfl, by simp [canvasReducer], by simp [canvasReducer], ?_⟩
  intro h
  have hlen := congrArg (fun st => st.elements.length) h
  simp [canvasReducer] at hlen

/-- Witness for command_idempotence_profile at a concrete scene. -/
theorem command_idempotence_profile_witness :
    (canvasReducer (canvasReducer initialState (.ADD_ELEMENT sampleElement))
        (.ADD_ELEMENT sampleElement)).elements.length
      = initialState.elements.length + 2 :=
  (command_idempotence_profile initialState [] sampleElement).2.2.2.2.2.1

/-- C5 counterexample: in a scene with two distinct elements sharing id
"a", REMOVE_ELEMENT "a" removes both of them, not only the first, so the
result is empty rather than the singleton containing the second element. -/
theorem remove_drops_all_duplicates_cex :
    (canvasReducer ⟨[sampleElement, dupElement]⟩ (.REMOVE_ELEMENT "a")).elements = []
    ∧ (canvasReducer ⟨[sampleElement, dupElement]⟩ (.REMOVE_ELEMENT "a")).elements
        ≠ [dupElement] := by
  constructor
  · rfl
  · intro h
    simp [canvasReducer, sampleElement, dupElement] at h

/-- C5 amended: REMOVE_ELEMENT id drops every element carrying that id
(which is the first and only one when ids are unique), leaves all other
elements unchanged in order, and is a no-op when no element carries the
id. -/
theorem remove_element_filter_semantics (s : CanvasState) (i : String) :
    (canvasReducer s (.REMOVE_ELEMENT i)).elements
      = s.elements.filter (fun e => e.id != i)
    ∧ ((∀ e ∈ s.elements, e.id ≠ i) → canvasReducer s (.REMOVE_ELEMENT i) = s) := by
  constructor
  · rfl
  · intro h
    have : s.elements.filter (fun e => e.id != i) = s.elements := by
      apply List.filter_eq_self.2
      intro e he
      simpa using h e he
    simp [canvasReducer, this]

/-- Witness for remove_element_filter_semantics: removing an absent id
from a concrete one-element scene leaves the scene unchanged. -/
theorem remove_element_filter_semantics_witness :
    canvasReducer ⟨[sampleElement]⟩ (.REMOVE_ELEMENT "zz") = ⟨[sampleElement]⟩ :=
  (remove_element_filter_semantics ⟨[sampleElement]⟩ "zz").2 (by decide)

/-- C6: UPDATE_ELEMENT preserves length; every element at a position whose
id differs from the target is unchanged at that position; every element
at a position whose id matches becomes the shallow merge with the patch;
the merge replaces exactly the fields present in the patch; and when no
element carries the id the whole state is unchanged. -/
theorem update_element_semantics (s : CanvasState) (i : String) (p : CanvasElementPatch) :
    (canvasReducer s (.UPDATE_ELEMENT i p)).elements.length = s.elements.length
    ∧ (∀ (k : ℕ) (el : CanvasElement), s.elements[k]? = some el → el.id ≠ i →
        (canvasReducer s (.UPDATE_ELEMENT i p)).elements[k]? = some el)
    ∧ (∀ (k : ℕ) (el : CanvasElement), s.elements[k]? = some el → el.id = i →
        (canvasReducer s (.UPDATE_ELEMENT i p)).elements[k]? = some (applyUpdates el p))
    ∧ (∀ el : CanvasElement,
        (applyUpdates el p).id = (match p.id with | some v => v | none => el.id)
        ∧ (applyUpdates el p).type = (match p.type with | some v => v | none => el.type)
        ∧ (applyUpdates el p).x = (match p.x with | some v => v | none => el.x)
        ∧ (applyUpdates el p).y = (match p.y with | some v => v | none => el.y)
        ∧ (applyUpdates el p).width = (match p.width with | some v => some v | none => el.width)
        ∧ (applyUpdates el p).height = (match p.height with | some v => some v | none => el.height)
        ∧ (applyUpdates el p).radius = (match p.radius with | some v => some v | none => el.radius)
        ∧ (applyUpdates el p).fill = (match p.fill with | some v => v | none => el.fill)
        ∧ (applyUpdates el p).text = (match p.text with | some v => some v | none => el.text)
        ∧ (applyUpdates el p).fontSize
            = (match p.fontSize with | some v => some v | none => el.fontSize))
    ∧ ((∀ el ∈ s.elements, el.id ≠ i) → canvasReducer s (.UPDATE_ELEMENT i p) = s) := by
  refine ⟨by simp [canvasReducer], ?_, ?_, ?_, ?_⟩
  · intro k el hk hne
    simp [canvasReducer, List.getElem?_map, hk, hne]
  · intro k el hk heq
    simp [canvasReducer, List.getElem?_map, hk, heq]
  · intro el
    cases hid : p.id <;> cases hty : p.type <;>
      refine ⟨?_, ?_, ?_, ?_, ?_, ?_, ?_, ?_, ?_, ?_⟩ <;>
        simp [applyUpdates, mergeField, hid, hty] <;>
          cases p.x <;> cases p.y <;> cases p.width <;> cases p.height <;>
            cases p.radius <;> cases p.fill <;> cases p.text <;> cases p.fontSize <;> rfl
  · intro h
    have h1 : s.elements.map (fun el => if el.id = i then applyUpdates el p else el)
        = s.elements.map id := by
      apply List.map_congr_left
      intro el hel
      simp [h el hel]
    simp only [canvasReducer, h1, List.map_id]

/-- Witness for update_element_semantics: updating an absent id in a
concrete one-element scene leaves the scene unchanged. -/
theorem update_element_semantics_witness :
    canvasReducer ⟨[sampleElement]⟩ (.UPDATE_ELEMENT "zz" idPatch) = ⟨[sampleElement]⟩ :=
  (update_element_semantics ⟨[sampleElement]⟩ "zz" idPatch).2.2.2.2 (by decide)

/-- C7 counterexample: a patch whose id field is set renames the element,
so the id of a scene element is not immutable under UPDATE_ELEMENT for
arbitrary patches. -/
theorem update_can_change_id_cex :
    (canvasReducer ⟨[sampleElement]⟩ (.UPDATE_ELEMENT "a" idPatch)).elements.map
        CanvasElement.id = ["b"]
    ∧ (canvasReducer ⟨[sampleElement]⟩ (.UPDATE_ELEMENT "a" idPatch)).elements.map
        CanvasElement.id ≠ ["a"] := by
  constructor
  · rfl
  · decide

/-- C7 amended: for every patch that leaves the id field unset, the ids of
the scene are unchanged by UPDATE_ELEMENT, whatever other fields the
patch contains. -/
theorem update_preserves_id_without_id_patch (s : CanvasState) (i : String)
    (p : CanvasElementPatch) (h : p.id = none) :
    (canvasReducer s (.UPDATE_ELEMENT i p)).elements.map CanvasElement.id
      = s.elements.map CanvasElement.id := by
  simp only [canvasReducer, List.map_map]
  apply List.map_congr_left
  intro el hel
  by_cases hid : el.id = i <;> simp [hid, applyUpdates, h]

/-- Witness for update_preserves_id_without_id_patch at a concrete scene
and a patch with no id field. -/
theorem update_preserves_id_without_id_patch_witness :
    (canvasReducer ⟨[sampleElement]⟩ (.UPDATE_ELEMENT "a" emptyPatch)).elements.map
        CanvasElement.id = [sampleElement].map CanvasElement.id :=
  update_preserves_id_without_id_patch ⟨[sampleElement]⟩ "a" emptyPatch rfl

theorem qualifiesAt_true_iff (x y m : ℚ) (l : List CanvasElement) (e : CanvasElement) :
    qualifiesAt x y m l e = true ↔
      (distSq x y e < 400 ∧ distSq x y e < m ∧
        ∀ r ∈ l, distSq x y e ≤ distSq x y r) := by
  simp [qualifiesAt]

theorem find_eq_of_agree {α : Type} (p q : α → Bool) :
    ∀ l : List α, (∀ a ∈ l, p a = q a) → l.find? p = l.find? q := by
  intro l
  induction l with
  | nil => intro _; rfl
  | cons a t ih =>
    intro h
    have ha : p a = q a := h a (by simp)
    cases hq : q a with
    | true =>
      rw [List.find?_cons_of_pos _ (ha.trans hq), List.find?_cons_of_pos _ hq]
    | false =>
      rw [List.find?_cons_of_neg _ (by simp [ha, hq]),
        List.find?_cons_of_neg _ (by simp [hq])]
      exact ih (fun b hb => h b (by simp [hb]))

theorem exists_min_distSq (x y : ℚ) :
    ∀ l : List CanvasElement, l ≠ [] →
      ∃ e ∈ l, ∀ r ∈ l, distSq x y e ≤ distSq x y r := by
  intro l
  induction l with
  | nil => intro h; exact absurd rfl h
  | cons a t ih =>
    intro _
    by_cases ht : t = []
    · subst ht
      exact ⟨a, by simp, by simp⟩
    · obtain ⟨e, he, hmin⟩ := ih ht
      rcases le_total (distSq x y a) (distSq x y e) with hle | hle
      · refine ⟨a, by simp, ?_⟩
        intro r hr
        rcases List.mem_cons.mp hr with h1 | h1
        · simp [h1]
        · exact hle.trans (hmin r h1)
      · refine ⟨e, by simp [he], ?_⟩
        intro r hr
        rcases List.mem_cons.mp hr with h1 | h1
        · simpa [h1] using hle
        · exact hmin r h1

/-- Characterisation of the candidate loop: it returns the first element
that qualifies against the incoming minimum and is globally minimal, or
leaves the accumulator untouched when no element qualifies. -/
theorem findClosestAux_eq_find (x y : ℚ) :
    ∀ (l : List CanvasElement) (cid : Option String) (m : ℚ),
      findClosestAux x y l cid m =
        (match l.find? (qualifiesAt x y m l) with
         | some e => (some e.id, distSq x y e)
         | none => (cid, m)) := by
  intro l
  induction l with
  | nil => intro cid m; rfl
  | cons el t ih =>
    intro cid m
    by_cases hA : distSq x y el < m ∧ distSq x y el < 400
    · have hstep : findClosestAux x y (el :: t) cid m
          = findClosestAux x y t (some el.id) (distSq x y el) := by
        simp [findClosestAux, hA]
      rw [hstep, ih]
      rcases hfind : t.find? (qualifiesAt x y (distSq x y el) t) with _ | e₀
      · have hq : qualifiesAt x y m (el :: t) el = true := by
          rw [qualifiesAt_true_iff]
          refine ⟨hA.2, hA.1, ?_⟩
          intro r hr
          rcases List.mem_cons.mp hr with h1 | h1
          · simp [h1]
          · by_contra hlt
            push_neg at hlt
            obtain ⟨e₁, he₁, hmin₁⟩ :=
              exists_min_distSq x y t (List.ne_nil_of_mem h1)
            have hnone := List.find?_eq_none.mp hfind e₁ he₁
            apply hnone
            rw [qualifiesAt_true_iff]
            have h₁r : distSq x y e₁ ≤ distSq x y r := hmin₁ r h1
            exact ⟨lt_of_le_of_lt h₁r (hlt.trans hA.2),
              lt_of_le_of_lt h₁r hlt, hmin₁⟩
        rw [List.find?_cons_of_pos _ hq]
      · have hq₀ := (qualifiesAt_true_iff x y (distSq x y el) t e₀).mp
          (List.find?_some hfind)
        have hm₀ : e₀ ∈ t := List.mem_of_find?_eq_some hfind
        have hne : ¬ qualifiesAt x y m (el :: t) el = true := by
          rw [qualifiesAt_true_iff]
          rintro ⟨-, -, hmin⟩
          exact absurd (hmin e₀ (by simp [hm₀])) (not_le.mpr hq₀.2.1)
        rw [List.find?_cons_of_neg _ hne,
          find_eq_of_agree (qualifiesAt x y m (el :: t))
            (qualifiesAt x y (distSq x y el) t) t ?_, hfind]
        intro a ha
        unfold qualifiesAt
        rw [decide_eq_decide]
        constructor
        · rintro ⟨h4, -, hmin⟩
          refine ⟨h4, lt_of_le_of_lt (hmin e₀ (by simp [hm₀])) hq₀.2.1, ?_⟩
          intro r hr
          exact hmin r (by simp [hr])
        · rintro ⟨h4, hd, hmint⟩
          refine ⟨h4, lt_trans hd hA.1, ?_⟩
          intro r hr
          rcases List.mem_cons.mp hr with h1 | h1
          · rw [h1]
            exact le_of_lt hd
          · exact hmint r h1
    · have hstep : findClosestAux x y (el :: t) cid m
          = findClosestAux x y t cid m := by
        simp [findClosestAux, hA]
      rw [hstep, ih]
      have hne : ¬ qualifiesAt x y m (el :: t) el = true := by
        rw [qualifiesAt_true_iff]
        rintro ⟨h4, hm, -⟩
        exact hA ⟨hm, h4⟩
      rw [List.find?_cons_of_neg _ hne,
        find_eq_of_agree (qualifiesAt x y m (el :: t)) (qualifiesAt x y m t) t ?_]
      intro a ha
      unfold qualifiesAt
      rw [decide_eq_decide]
      constructor
      · rintro ⟨h4, hm, hmin⟩
        exact ⟨h4, hm, fun r hr => hmin r (by simp [hr])⟩
      · rintro ⟨h4, hm, hmint⟩
        refine ⟨h4, hm, ?_⟩
        intro r hr
        rcases List.mem_cons.mp hr with h1 | h1
        · rw [h1]
          rcases not_and_or.mp hA with hge | hge
          · exact (lt_of_lt_of_le hm (not_lt.mp hge)).le
          · exact (lt_of_lt_of_le h4 (not_lt.mp hge)).le
        · exact hmint r h1

/-- The candidate loop started from the initial accumulator of the source
(no candidate, minimum 100000000) computes exactly the first nearest
element within the threshold. -/
theorem findClosestAux_top (x y : ℚ) (l : List CanvasElement) :
    (findClosestAux x y l none 100000000).1
      = (nearestWithinThreshold x y l).map (fun e => e.id) := by
  rw [findClosestAux_eq_find]
  have hag : l.find? (qualifiesAt x y 100000000 l)
      = l.find? (fun e =>
          decide (distSq x y e < 400 ∧ ∀ r ∈ l, distSq x y e ≤ distSq x y r)) := by
    apply find_eq_of_agree
    intro a ha
    unfold qualifiesAt
    rw [decide_eq_decide]
    constructor
    · rintro ⟨h4, -, hmin⟩
      exact ⟨h4, hmin⟩
    · rintro ⟨h4, hmin⟩
      exact ⟨h4, lt_trans h4 (by norm_num), hmin⟩
  rw [hag]
  unfold nearestWithinThreshold
  rcases l.find? (fun e =>
      decide (distSq x y e < 400 ∧ ∀ r ∈ l, distSq x y e ≤ distSq x y r)) with _ | e
  · rfl
  · rfl

theorem findClosestAux_mem (x y : ℚ) :
    ∀ (l : List CanvasElement) (cid : Option String) (m : ℚ) (i : String),
      (findClosestAux x y l cid m).1 = some i →
        cid = some i ∨ ∃ e ∈ l, e.id = i := by
  intro l
  induction l with
  | nil => intro cid m i h; exact Or.inl h
  | cons el t ih =>
    intro cid m i h
    by_cases hA : distSq x y el < m ∧ distSq x y el < 400
    · rw [show findClosestAux x y (el :: t) cid m
          = findClosestAux x y t (some el.id) (distSq x y el) from by
        simp [findClosestAux, hA]] at h
      rcases ih (some el.id) (distSq x y el) i h with h1 | ⟨e, he, hei⟩
      · exact Or.inr ⟨el, by simp, by simpa using h1⟩
      · exact Or.inr ⟨e, by simp [he], hei⟩
    · rw [show findClosestAux x y (el :: t) cid m
          = findClosestAux x y t cid m from by simp [findClosestAux, hA]] at h
      rcases ih cid m i h with h1 | ⟨e, he, hei⟩
      · exact Or.inl h1
      · exact Or.inr ⟨e, by simp [he], hei⟩

/-- C4 counterexample: a single element with the empty string as id sits
exactly on the target, so it is the closest qualifying element within the
threshold, yet the mapper returns none instead of RemoveElement of its
id, because the JavaScript truthiness test on closestId rejects the empty
string. -/
theorem remove_element_empty_id_cex :
    mapToolToAction (.remove_element 10 11) [emptyIdElement] "f" = none
    ∧ mapToolToAction (.remove_element 10 11) [emptyIdElement] "f"
        ≠ some (.REMOVE_ELEMENT "")
    ∧ nearestWithinThreshold 10 11 [emptyIdElement] = some emptyIdElement := by
  refine ⟨?_, ?_, ?_⟩
  · norm_num [mapToolToAction, findClosestAux, distSq, emptyIdElement]
  · norm_num [mapToolToAction, findClosestAux, distSq, emptyIdElement]
    simp
  · norm_num [nearestWithinThreshold, emptyIdElement, distSq, List.find?]

/-- C4 amended: provided every element id is a non-empty string, mapping
remove_element performs the nearest-neighbor search of the specification:
the result is RemoveElement of the first element in iteration order that
is within the squared threshold 400 and at minimal distance (so ties at
exactly equal distance are won by the first element), and none when no
element is within the threshold.  On the specification examples, the
target (10,11) selects the first-enumerated of the two near elements and
never the one at (50,50); the target (90,90) selects none; and the exact
tie at distance 1 is won by the first element. -/
theorem remove_element_nearest_neighbor (els : List CanvasElement) (x y : ℚ)
    (fid : String) (hids : ∀ e ∈ els, e.id ≠ "") :
    mapToolToAction (.remove_element x y) els fid
      = (nearestWithinThreshold x y els).map
          (fun e => CanvasAction.REMOVE_ELEMENT e.id)
    ∧ mapToolToAction (.remove_element 10 11) exampleElems "f"
        = some (.REMOVE_ELEMENT "e1")
    ∧ mapToolToAction (.remove_element 90 90) exampleElems "f" = none
    ∧ mapToolToAction (.remove_element 11 10) tieElems "f"
        = some (.REMOVE_ELEMENT "t1") := by
  refine ⟨?_,
    by norm_num [mapToolToAction, findClosestAux, distSq, exampleElems]; simp,
    by norm_num [mapToolToAction, findClosestAux, distSq, exampleElems],
    by norm_num [mapToolToAction, findClosestAux, distSq, tieElems]; simp⟩
  show (match (findClosestAux x y els none 100000000).1 with
    | some closestId =>
        if closestId = "" then none else some (.REMOVE_ELEMENT closestId)
    | none => none)
    = (nearestWithinThreshold x y els).map
        (fun e => CanvasAction.REMOVE_ELEMENT e.id)
  rw [findClosestAux_top]
  rcases hnear : nearestWithinThreshold x y els with _ | e
  · rfl
  · have he : e ∈ els := List.mem_of_find?_eq_some hnear
    simp [hids e he]

/-- Witness for remove_element_nearest_neighbor at the specification
example list, whose ids are all non-empty. -/
theorem remove_element_nearest_neighbor_witness :
    mapToolToAction (.remove_element 10 11) exampleElems "f"
      = (nearestWithinThreshold 10 11 exampleElems).map
          (fun e => CanvasAction.REMOVE_ELEMENT e.id) :=
  (remove_element_nearest_neighbor exampleElems 10 11 "f" (by decide)).1

/-- C10: whenever the mapper returns a RemoveElement command, the payload
id belongs to some element of the element list it was given; in
particular mapping remove_element against the empty list returns none. -/
theorem remove_targets_existing_element :
    (∀ (call : ToolCall) (els : List CanvasElement) (fid i : String),
        mapToolToAction call els fid = some (.REMOVE_ELEMENT i) →
          ∃ e ∈ els, e.id = i)
    ∧ ∀ (x y : ℚ) (fid : String),
        mapToolToAction (.remove_element x y) [] fid = none := by
  constructor
  · intro call els fid i h
    cases call with
    | draw_shape ty x y size color => simp [mapToolToAction] at h
    | add_text txt x y color fontSize => simp [mapToolToAction] at h
    | clear_board => simp [mapToolToAction] at h
    | unknown nm => simp [mapToolToAction] at h
    | remove_element x y =>
      rcases haux : (findClosestAux x y els none 100000000).1 with _ | c
      · simp [mapToolToAction, haux] at h
      · rcases findClosestAux_mem x y els none 100000000 c haux with h1 | h1
        · exact absurd h1 (by simp)
        · by_cases hc : c = ""
          · simp [mapToolToAction, haux, hc] at h
          · simp only [mapToolToAction, haux, if_neg hc, Option.some.injEq,
              CanvasAction.REMOVE_ELEMENT.injEq] at h
            exact h ▸ h1
  · intro x y fid
    rfl

/-- Witness for remove_targets_existing_element: a concrete removal whose
returned id is the id of the single element of the list. -/
theorem remove_targets_existing_element_witness :
    ∃ e ∈ [sampleElement], e.id = "a" :=
  remove_targets_existing_element.1 (.remove_element 0 0) [sampleElement] "f" "a"
    (by norm_num [mapToolToAction, findClosestAux, distSq, sampleElement]; simp)

theorem agenticLoop_ok_iterations_le (model : Nat → Except String ModelResponse)
    (ids : Nat → String) :
    ∀ (fuel k n it : Nat) (draft : List CanvasElement) (resp : ModelResponse)
      (d : List CanvasElement) (r : ModelResponse) (i : Nat),
      agenticLoop model ids fuel k n it draft resp = .ok (d, r, i) → i ≤ it + fuel := by
  intro fuel
  induction fuel with
  | zero =>
    intro k n it draft resp d r i h
    simp only [agenticLoop, Except.ok.injEq, Prod.mk.injEq] at h
    omega
  | succ fuel ih =>
    intro k n it draft resp d r i h
    simp only [agenticLoop] at h
    split at h
    · simp only [Except.ok.injEq, Prod.mk.injEq] at h
      omega
    · split at h
      · exact absurd h (by simp)
      · have := ih (k + 1) (applyCalls ids resp.functionCalls n draft).2 (it + 1)
          (applyCalls ids resp.functionCalls n draft).1 _ d r i h
        omega

theorem agenticLoop_ok_exit (model : Nat → Except String ModelResponse)
    (ids : Nat → String) :
    ∀ (fuel k n it : Nat) (draft : List CanvasElement) (resp : ModelResponse)
      (d : List CanvasElement) (r : ModelResponse) (i : Nat),
      MAX_ITERATIONS ≤ it + fuel →
      agenticLoop model ids fuel k n it draft resp = .ok (d, r, i) →
      r.functionCalls = [] ∨ MAX_ITERATIONS ≤ i := by
  intro fuel
  induction fuel with
  | zero =>
    intro k n it draft resp d r i hcap h
    simp only [agenticLoop, Except.ok.injEq, Prod.mk.injEq] at h
    right
    omega
  | succ fuel ih =>
    intro k n it draft resp d r i hcap h
    simp only [agenticLoop] at h
    split at h
    · rename_i hcond
      simp only [Except.ok.injEq, Prod.mk.injEq] at h
      obtain ⟨-, hr, hi⟩ := h
      rcases hcond with hc | hc
      · exact Or.inl (hr ▸ hc)
      · exact Or.inr (by omega)
    · split at h
      · exact absurd h (by simp)
      · exact ih (k + 1) (applyCalls ids resp.functionCalls n draft).2 (it + 1)
          (applyCalls ids resp.functionCalls n draft).1 _ d r i (by omega) h

/-- C3: the no-echo claim fails on the code.  broadcastAction posts on a
freshly constructed channel object while the subscription of the same
context is a different channel object with the same name, so the posted
message is delivered back to the originating context and its onmessage
re-dispatches it.  Publishing ADD_ELEMENT of a concrete element over an
empty scene leaves the originating observer with the element applied
twice while the second observer holds it once: the two scenes are not
structurally equal and the originator does re-apply its own command.
The remote handler itself still never re-publishes, so the cross-context
ping-pong the spec is worried about does not occur. -/
theorem broadcast_echo_double_apply :
    (broadcastLocalCommand ⟨[]⟩ ⟨[]⟩ (.ADD_ELEMENT sampleElement)).1.elements
      = [sampleElement, sampleElement]
    ∧ (broadcastLocalCommand ⟨[]⟩ ⟨[]⟩ (.ADD_ELEMENT sampleElement)).2.elements
      = [sampleElement]
    ∧ (broadcastLocalCommand ⟨[]⟩ ⟨[]⟩ (.ADD_ELEMENT sampleElement)).1
        ≠ (broadcastLocalCommand ⟨[]⟩ ⟨[]⟩ (.ADD_ELEMENT sampleElement)).2
    ∧ (publishLocal ⟨[]⟩ (.ADD_ELEMENT sampleElement)).2 = [.ADD_ELEMENT sampleElement]
    ∧ (receiveRemote ⟨[]⟩ (.ADD_ELEMENT sampleElement)).2 = [] := by
  refine ⟨rfl, rfl, ?_, rfl, rfl⟩
  intro h
  have hlen := congrArg (fun st => st.elements.length) h
  simp [broadcastLocalCommand, publishLocal, receiveRemote, canvasReducer] at hlen

/-- C1: on every run that does not fail, the verification loop performs at
most 5 iterations; if it exited before the cap, the final response
carries no tool calls (early termination); and on loop exit the draft is
committed to the committed scene through a single SET_STATE dispatch,
regardless of any tool calls remaining in the final response. -/
theorem loop_bounded_and_commits_once (model : Nat → Except String ModelResponse)
    (ids : Nat → String) (committed : List CanvasElement)
    (h : (runTextInstruction model ids committed).errored = false) :
    (runTextInstruction model ids committed).iterations ≤ 5
    ∧ ((runTextInstruction model ids committed).iterations < 5 →
        ∃ r, (runTextInstruction model ids committed).finalResponse = some r
          ∧ r.functionCalls = [])
    ∧ ∃ d, (runTextInstruction model ids committed).dispatched
            = [CanvasAction.SET_STATE d]
        ∧ (runTextInstruction model ids committed).committed
            = (canvasReducer ⟨committed⟩ (CanvasAction.SET_STATE d)).elements := by
  rcases h0 : model 0 with e | r0
  · rw [runTextInstruction, h0] at h
    simp at h
  · rcases hloop : agenticLoop model ids MAX_ITERATIONS 1 0 0 committed r0
      with e | ⟨draft, resp, iters⟩
    · rw [runTextInstruction, h0] at h
      dsimp only at h
      rw [hloop] at h
      simp at h
    · rw [runTextInstruction, h0]
      dsimp only
      rw [hloop]
      dsimp only
      refine ⟨?_, ?_, draft, rfl, rfl⟩
      · have := agenticLoop_ok_iterations_le model ids MAX_ITERATIONS 1 0 0
          committed r0 draft resp iters hloop
        simpa [MAX_ITERATIONS] using this
      · intro hlt
        rcases agenticLoop_ok_exit model ids MAX_ITERATIONS 1 0 0 committed r0
            draft resp iters (by simp) hloop with hc | hge
        · exact ⟨resp, rfl, hc⟩
        · exact absurd hge (by simp only [MAX_ITERATIONS]; omega)

/-- Witness for loop_bounded_and_commits_once on a model that answers
without tool calls. -/
theorem loop_bounded_and_commits_once_witness :
    (runTextInstruction idleModel uuidStream []).iterations ≤ 5 :=
  (loop_bounded_and_commits_once idleModel uuidStream [] rfl).1

/-- C2: when a model round trip fails, the run ends in the catch branch:
the committed scene is exactly what it was before the run, nothing is
dispatched to the committed store, the failure message is surfaced as a
transcript event, the phase returns to idle unconditionally and the draft
is discarded. -/
theorem model_failure_aborts_run (model : Nat → Except String ModelResponse)
    (ids : Nat → String) (committed : List CanvasElement)
    (h : (runTextInstruction model ids committed).errored = true) :
    (runTextInstruction model ids committed).committed = committed
    ∧ (runTextInstruction model ids committed).dispatched = []
    ∧ (runTextInstruction model ids committed).transcript = [errorMessage]
    ∧ (runTextInstruction model ids committed).phase = .idle
    ∧ (runTextInstruction model ids committed).draftElements = none := by
  rcases h0 : model 0 with e | r0
  · rw [runTextInstruction, h0]
    exact ⟨rfl, rfl, rfl, rfl, rfl⟩
  · rcases hloop : agenticLoop model ids MAX_ITERATIONS 1 0 0 committed r0
      with e | ⟨draft, resp, iters⟩
    · rw [runTextInstruction, h0]
      dsimp only
      rw [hloop]
      exact ⟨rfl, rfl, rfl, rfl, rfl⟩
    · rw [runTextInstruction, h0] at h
      dsimp only at h
      rw [hloop] at h
      simp at h

/-- Witness for model_failure_aborts_run on a model whose first round trip
fails. -/
theorem model_failure_aborts_run_witness :
    (runTextInstruction failingModel uuidStream [sampleElement]).committed
      = [sampleElement] :=
  (model_failure_aborts_run failingModel uuidStream [sampleElement] rfl).1

/-- C9: mapping draw_shape always yields AddElement of an element carrying
the freshly generated id, with size interpreted per kind, in particular
half the size as the radius for a circle; and end to end, the instruction
answered by one draw_shape call for a red circle at (50,50) of size 20
followed by a call-free response leaves the committed scene with exactly
one circle element at (50,50) of radius 10 filled red, after one
iteration, with the loop state back at idle. -/
theorem draw_shape_end_to_end :
    (∀ (ty : String) (x y size : ℚ) (color : String) (els : List CanvasElement)
        (fid : String),
        mapToolToAction (.draw_shape ty x y size color) els fid
          = some (.ADD_ELEMENT ⟨fid, ty, x, y,
              (if ty = "rect" ∨ ty = "triangle" then some size else none),
              (if ty = "rect" then some size else none),
              (if ty = "circle" then some (size / 2) else none),
              color, none, none⟩))
    ∧ (runTextInstruction demoModel uuidStream []).committed
        = [⟨uuidStream 0, "circle", 50, 50, none, none, some 10, "red", none, none⟩]
    ∧ (runTextInstruction demoModel uuidStream []).phase = .idle
    ∧ (runTextInstruction demoModel uuidStream []).iterations = 1 := by
  refine ⟨fun ty x y size color els fid => rfl, ?_, rfl, rfl⟩
  norm_num [runTextInstruction, demoModel, agenticLoop, applyCalls, mapToolToAction,
    MAX_ITERATIONS, canvasReducer]
  decide

end AudioCanvas
